import Mathlib

/-!
Shallow embedding of the moment lifecycle engine of the kindred-moment-echoes
backend (Express/Mongoose), together with proofs about its specification.

Conventions of the embedding:
* timestamps are milliseconds since the epoch, modelled as `Int`
  (JS `Date` values compare numerically);
* JS numbers used for coordinates/averages are modelled as exact rationals;
* MongoDB collections are modelled as Lean lists in insertion order;
* MongoDB queries whose result order is not fully determined by the code
  (`$near` ordering on distance ties, `$group` output order, `$sort` on a
  single non-unique key) are modelled relationally: a predicate describes
  every result list the database may legally return, and theorems quantify
  over all of them;
* fallible route handlers return `Except` with the route's status code and
  message.
-/

namespace KM

/-- Milliseconds in one hour. -/
def hourMs : Int := 3600000

/-- Milliseconds in one day (the 24-hour moment window). -/
def dayMs : Int := 86400000

/-! ## First schema: backend/models/Moment.js, backend/models/Post.js -/

/-- A participant entry embedded in a moment (`participants` array of
`momentSchema`): an anonymous id plus the join timestamp. -/
structure Participant where
  anonymousId : String
  joinedAt : Int
deriving Repr, DecidableEq

/-- The per-moment mood counters of `momentSchema.moodSummary`. -/
structure MoodCounters where
  happy : Nat
  sad : Nat
  excited : Nat
  calm : Nat
  anxious : Nat
  grateful : Nat
  reflective : Nat
  total : Nat
deriving Repr, DecidableEq

/-- All-zero mood counters (the schema defaults). -/
def MoodCounters.zero : MoodCounters := ⟨0, 0, 0, 0, 0, 0, 0, 0⟩

/-- A moment document of `momentSchema`: GeoJSON point location
(`coordinates` are `[longitude, latitude]`), a 24-hour time window,
embedded participants, referenced post ids, mood counters, and the
active/archived flags. -/
structure Moment where
  id : Nat
  lon : ℚ
  lat : ℚ
  timeStart : Int
  timeEnd : Int
  participants : List Participant
  posts : List Nat
  moodSummary : MoodCounters
  isActive : Bool
  isArchived : Bool
  createdAt : Int
deriving Repr, DecidableEq

/-- The `isExpired` virtual: `new Date() > this.timeWindow.end`. -/
def Moment.isExpired (m : Moment) (now : Int) : Bool :=
  decide (m.timeEnd < now)

/-- `momentSchema.methods.addParticipant`: push `{ anonymousId }` unless an
entry with that id already exists; `joinedAt` defaults to now. -/
def Moment.addParticipant (m : Moment) (anonymousId : String) (now : Int) : Moment :=
  if m.participants.any (fun p => p.anonymousId == anonymousId) then m
  else { m with participants := m.participants ++ [⟨anonymousId, now⟩] }

/-- Bump one named counter (and the total) of the mood summary; unknown mood
strings leave the counters untouched (`momentSchema.methods.updateMood`
checks `this.moodSummary[mood] !== undefined`). -/
def MoodCounters.bump (c : MoodCounters) (mood : String) : MoodCounters :=
  match mood with
  | "happy" => { c with happy := c.happy + 1, total := c.total + 1 }
  | "sad" => { c with sad := c.sad + 1, total := c.total + 1 }
  | "excited" => { c with excited := c.excited + 1, total := c.total + 1 }
  | "calm" => { c with calm := c.calm + 1, total := c.total + 1 }
  | "anxious" => { c with anxious := c.anxious + 1, total := c.total + 1 }
  | "grateful" => { c with grateful := c.grateful + 1, total := c.total + 1 }
  | "reflective" => { c with reflective := c.reflective + 1, total := c.total + 1 }
  | _ => c

/-- `momentSchema.methods.updateMood`. -/
def Moment.updateMood (m : Moment) (mood : String) : Moment :=
  { m with moodSummary := m.moodSummary.bump mood }

/-- The mood enum accepted by the validators of
`POST /api/moments/:id/posts` and `POST /api/moments/:id/moods`. -/
def isValidMomentMood (mood : String) : Bool :=
  mood == "happy" || mood == "sad" || mood == "excited" || mood == "calm" ||
    mood == "anxious" || mood == "grateful" || mood == "reflective"

/-- A post document of the first schema (`backend/models/Post.js` as used by
`backend/routes/moments.js`). -/
structure Post1 where
  id : Nat
  momentId : Nat
  text : String
  mood : String
  anonymousUserId : String
  createdAt : Int
deriving Repr, DecidableEq

/-! ## GeoIndex: `Moment.findNearby`

`findNearby` issues a `$near` geospatial query filtered by
`isActive: true` and `timeWindow.end > now`, with `$maxDistance` in
meters.  MongoDB returns `$near` results ordered by increasing distance,
but the relative order of documents at exactly equal distance is not
specified anywhere in the repository; the distance function itself
(spherical geometry on the 2dsphere index) also lives in the database.
The embedding therefore keeps the metric as a parameter `dist` and
describes the set of result lists the query may return. -/

/-- The filter of `findNearby`: active, non-expired, within
`radius` meters of the queried `(lon, lat)` under the metric `dist`. -/
def momentMatches (dist : ℚ × ℚ → ℚ × ℚ → ℚ) (now : Int) (lon lat radius : ℚ)
    (m : Moment) : Bool :=
  m.isActive && decide (now < m.timeEnd) && decide (dist (lon, lat) (m.lon, m.lat) ≤ radius)

/-- All result lists MongoDB may return for the `findNearby` query: a
permutation of the matching moments, ordered by non-decreasing distance. -/
def FindNearbyResult (dist : ℚ × ℚ → ℚ × ℚ → ℚ) (now : Int) (lon lat radius : ℚ)
    (moments : List Moment) (r : List Moment) : Prop :=
  r.Perm (moments.filter (momentMatches dist now lon lat radius)) ∧
    r.Pairwise (fun a b => dist (lon, lat) (a.lon, a.lat) ≤ dist (lon, lat) (b.lon, b.lat))

instance (dist : ℚ × ℚ → ℚ × ℚ → ℚ) (now : Int) (lon lat radius : ℚ)
    (moments : List Moment) (r : List Moment) :
    Decidable (FindNearbyResult dist now lon lat radius moments r) := by
  unfold FindNearbyResult
  infer_instance

/-! ## MomentStore: `POST /api/moments` (backend/routes/moments.js) -/

/-- A fresh moment as built by the route: sole participant, 24-hour window
(the schema defaults `timeWindow.start = now`, `end = now + 24h`). -/
def newMoment (id : Nat) (lon lat : ℚ) (anon : String) (now : Int) : Moment :=
  { id := id, lon := lon, lat := lat, timeStart := now, timeEnd := now + dayMs,
    participants := [⟨anon, now⟩], posts := [], moodSummary := MoodCounters.zero,
    isActive := true, isArchived := false, createdAt := now }

/-- Replace the moment with the given id by `m` (a mongoose `save` of a
fetched document). -/
def saveMoment (moments : List Moment) (m : Moment) : List Moment :=
  moments.map (fun x => if x.id = m.id then m else x)

/-- What `POST /api/moments` responds with, plus the updated store. -/
structure CreateOrJoinResult where
  moments : List Moment
  momentId : Nat
  isNewMoment : Bool
  participantCount : Nat
deriving Repr, DecidableEq

/-- `POST /api/moments`: `r` is the list returned by
`Moment.findNearby(longitude, latitude, 50)`; if non-empty the first
moment is joined via `addParticipant`, otherwise a fresh moment is
created with the caller as sole participant. -/
def createOrJoin (moments : List Moment) (r : List Moment) (lon lat : ℚ)
    (anon : String) (now : Int) (freshId : Nat) : CreateOrJoinResult :=
  match r with
  | m :: _ =>
    let m1 := m.addParticipant anon now
    { moments := saveMoment moments m1, momentId := m.id, isNewMoment := false,
      participantCount := m1.participants.length }
  | [] =>
    let m := newMoment freshId lon lat anon now
    { moments := moments ++ [m], momentId := freshId, isNewMoment := true,
      participantCount := 1 }

/-- An HTTP error response: status code and message. -/
structure RouteError where
  status : Nat
  message : String
deriving Repr, DecidableEq

/-- `POST /api/moments/:id/posts`: validates text length and mood enum,
requires an anonymous session, 404 on unknown moment, 410 on expired
moment, then creates the post, pushes its id onto `moment.posts` and
bumps the mood counters.  No participation check is performed. -/
def momentsAddPost (moments : List Moment) (posts : List Post1) (id : Nat)
    (text mood : String) (session : Option String) (now : Int) (freshId : Nat) :
    Except RouteError (List Moment × List Post1) :=
  if ¬ (1 ≤ text.length ∧ text.length ≤ 300) then .error ⟨400, "Validation failed"⟩
  else if ¬ isValidMomentMood mood then .error ⟨400, "Validation failed"⟩
  else
    match session with
    | none => .error ⟨401, "Anonymous session required"⟩
    | some anon =>
      match moments.find? (fun m => m.id == id) with
      | none => .error ⟨404, "Moment not found"⟩
      | some m =>
        if m.isExpired now then .error ⟨410, "Cannot post to expired moment"⟩
        else
          let post : Post1 := ⟨freshId, id, text, mood, anon, now⟩
          let m2 := ({ m with posts := m.posts ++ [freshId] } : Moment).updateMood mood
          .ok (saveMoment moments m2, posts ++ [post])

/-- `POST /api/moments/:id/moods`: validates the mood enum, requires a
session, 404 on unknown moment, 410 on expired moment, then bumps the
per-moment mood counters via `updateMood` — with no per-user tracking —
and responds with the updated counters. -/
def momentsSubmitMood (moments : List Moment) (id : Nat) (mood : String)
    (session : Option String) (now : Int) :
    Except RouteError (List Moment × MoodCounters) :=
  if ¬ isValidMomentMood mood then .error ⟨400, "Validation failed"⟩
  else
    match session with
    | none => .error ⟨401, "Anonymous session required"⟩
    | some _ =>
      match moments.find? (fun m => m.id == id) with
      | none => .error ⟨404, "Moment not found"⟩
      | some m =>
        if m.isExpired now then .error ⟨410, "Cannot submit mood to expired moment"⟩
        else
          let m1 := m.updateMood mood
          .ok (saveMoment moments m1, m1.moodSummary)

/-! ## ExpiryScheduler: `cleanupExpiredMoments` (backend jobs file)

Step 1 archives every not-yet-archived moment whose window has ended
(`timeWindow.end <= now`): `isArchived := true`, `isActive := false`,
data retained.  Step 2 deletes every archived moment whose window ended
at least 30 days ago (`thirtyDaysAgo.setDate(getDate() - 30)`), deleting
its posts first.  Step 2 runs after the step-1 saves, so it sees the
freshly archived flags. -/

/-- Step 1 applied to one moment: archive it if its window has ended and
it is not archived yet. -/
def archiveOne (now : Int) (m : Moment) : Moment :=
  if m.timeEnd ≤ now ∧ m.isArchived = false
  then { m with isArchived := true, isActive := false } else m

/-- The moment store after the sweep's archive pass. -/
def archiveStep (now : Int) (moments : List Moment) : List Moment :=
  moments.map (archiveOne now)

/-- The ids selected by the sweep's purge query: archived moments whose
window ended at least 30 days ago.  The query runs after the archive
saves, so it sees the freshly archived flags. -/
def purgeIds (now : Int) (moments : List Moment) : List Nat :=
  ((archiveStep now moments).filter
    (fun m => decide (m.timeEnd ≤ now - 30 * dayMs) && m.isArchived)).map (·.id)

/-- One sweep of `cleanupExpiredMoments` over the moment and post stores:
archive ended moments, then delete 30-day-old archived moments together
with their posts. -/
def cleanupExpiredMoments (now : Int) (moments : List Moment) (posts : List Post1) :
    List Moment × List Post1 :=
  ((archiveStep now moments).filter (fun m => ¬ m.id ∈ purgeIds now moments),
    posts.filter (fun p => ¬ p.momentId ∈ purgeIds now moments))

/-! ## MoodAggregator: backend/models/Mood.js

A `moodSchema` document is one vote row; the collection carries a unique
index on `(momentId, userId)`.  `updateMoodVote` upserts the caller's
single row; `getMoodSummary` runs an aggregation pipeline grouping the
moment's rows by mood, sorting groups by descending count, and taking the
top three as the dominant moods.  MongoDB specifies neither the output
order of `$group` nor the relative order of equal-count groups under
`$sort { count: -1 }`, so summaries are modelled relationally below. -/

/-- A mood vote row (`moodSchema`). -/
structure MoodRow where
  momentId : Nat
  userId : String
  mood : String
  intensity : Nat
  createdAt : Int
deriving Repr, DecidableEq

/-- Mutate the first row keyed `(momentId, userId)` to the new mood,
intensity and timestamp (the `findOne` + `save` path of
`updateMoodVote`). -/
def updateFirstVote (mid : Nat) (uid mood : String) (intensity : Nat) (now : Int) :
    List MoodRow → List MoodRow
  | [] => []
  | r :: rs =>
    if r.momentId = mid ∧ r.userId = uid then
      { r with mood := mood, intensity := intensity, createdAt := now } :: rs
    else r :: updateFirstVote mid uid mood intensity now rs

/-- `moodSchema.statics.updateMoodVote`: overwrite the existing row for
`(momentId, userId)` if one exists, otherwise create a fresh row. -/
def updateMoodVote (rows : List MoodRow) (mid : Nat) (uid mood : String)
    (intensity : Nat) (now : Int) : List MoodRow :=
  if rows.any (fun r => r.momentId == mid && r.userId == uid) then
    updateFirstVote mid uid mood intensity now rows
  else rows ++ [⟨mid, uid, mood, intensity, now⟩]

/-- One `$group` bucket of the summary pipeline: a mood with its vote
count and the sum of intensities (from which `$avg` is derived). -/
structure MoodGroup where
  mood : String
  count : Nat
  intensitySum : Nat
deriving Repr, DecidableEq

/-- The distinct mood strings of a row list, in first-occurrence order. -/
def distinctMoodsAux (acc : List String) : List MoodRow → List String
  | [] => acc
  | r :: rs => distinctMoodsAux (if r.mood ∈ acc then acc else acc ++ [r.mood]) rs

/-- Distinct moods of a row list. -/
def distinctMoods (rows : List MoodRow) : List String := distinctMoodsAux [] rows

/-- The multiset content of the `$group` stage: one bucket per distinct
mood, carrying the exact vote count and intensity sum of that mood. -/
def groupRows (rows : List MoodRow) : List MoodGroup :=
  (distinctMoods rows).map (fun md =>
    { mood := md,
      count := (rows.filter (fun r => r.mood == md)).length,
      intensitySum := ((rows.filter (fun r => r.mood == md)).map (·.intensity)).sum })

/-- Round half up, `Math.round` on a non-negative rational. -/
def roundHalfUp (x : ℚ) : ℤ := Int.floor (x + 1 / 2)

/-- One entry of `dominantMoods` (the `emoji` field is a presentational
constant lookup and is omitted). `percentage` is
`Math.round((count / totalVotes) * 100)` guarded to `0` when
`totalVotes = 0`; on naturals the round equals
`(200 * count + total) / (2 * total)` in integer division.
`avgIntensity` is `Math.round(avg * 10) / 10`. -/
structure SummaryEntry where
  mood : String
  count : Nat
  percentage : Nat
  avgIntensity : ℚ
deriving Repr, DecidableEq

/-- Build a dominant-mood entry from a group given the vote total. -/
def SummaryEntry.ofGroup (total : Nat) (g : MoodGroup) : SummaryEntry :=
  { mood := g.mood, count := g.count,
    percentage := if 0 < total then (200 * g.count + total) / (2 * total) else 0,
    avgIntensity := ((roundHalfUp ((10 * g.intensitySum : ℚ) / (g.count : ℚ)) : ℚ) / 10) }

/-- The value `getMoodSummary` resolves with. -/
structure MoodSummary where
  totalVotes : Nat
  moods : List (String × Nat)
  dominantMoods : List SummaryEntry
deriving Repr, DecidableEq

/-- Assemble the summary from the sorted group list `gs`:
`totalVotes` sums all counts, `moods` maps every group, and
`dominantMoods` takes the first three groups (`results.slice(0, 3)`). -/
def summarize (gs : List MoodGroup) : MoodSummary :=
  let total := (gs.map (·.count)).sum
  { totalVotes := total,
    moods := gs.map (fun g => (g.mood, g.count)),
    dominantMoods := (gs.take 3).map (SummaryEntry.ofGroup total) }

/-- All group lists the `$match`/`$group`/`$sort` pipeline of
`getMoodSummary` may produce for a moment: a permutation of the moment's
per-mood buckets, in non-increasing count order. -/
def GroupsValid (rows : List MoodRow) (mid : Nat) (gs : List MoodGroup) : Prop :=
  gs.Perm (groupRows (rows.filter (fun r => r.momentId == mid))) ∧
    gs.Pairwise (fun a b => b.count ≤ a.count)

instance (rows : List MoodRow) (mid : Nat) (gs : List MoodGroup) :
    Decidable (GroupsValid rows mid gs) := by
  unfold GroupsValid
  infer_instance

/-- Stable insertion into a count-descending group list: the new group
goes after every strictly larger group and before equal-count groups
that occur later in the original order. -/
def insertByCountDesc (g : MoodGroup) : List MoodGroup → List MoodGroup
  | [] => [g]
  | h :: t => if g.count < h.count then h :: insertByCountDesc g t else g :: h :: t

/-- Stable sort of groups by descending count. -/
def sortGroupsDesc (l : List MoodGroup) : List MoodGroup :=
  l.foldr insertByCountDesc []

/-- The specification's determinized dominant list: top three moods by
count, ties broken by the earliest-recorded mood.  `groupRows` lists
buckets in first-occurrence order, so a stable descending sort realizes
the spec's tie-break.  This definition follows the specification's words
and exists to be compared against the relational code model. -/
def dominantPerSpec (rows : List MoodRow) (mid : Nat) : List String :=
  ((sortGroupsDesc (groupRows (rows.filter (fun r => r.momentId == mid)))).take 3).map (·.mood)

/-! ## Second schema: moment routes keyed by `userId`
(backend/routes/posts.js, backend/routes/moods.js, and the
`PUT /api/moments/:id/leave` route). -/

/-- A participant record of the second moment schema. -/
structure Participant2 where
  userId : String
  joinedAt : Int
  lastActive : Int
deriving Repr, DecidableEq

/-- The `stats` sub-document of the second moment schema. -/
structure MomentStats where
  totalPosts : Nat
  peakParticipants : Nat
deriving Repr, DecidableEq

/-- A moment document of the second schema. -/
structure Moment2 where
  id : Nat
  participants : List Participant2
  isActive : Bool
  stats : MomentStats
  createdAt : Int
deriving Repr, DecidableEq

/-- An `AppError` thrown by the second-schema routes. -/
structure AppError where
  message : String
  status : Nat
deriving Repr, DecidableEq

/-- `Moment.findById` over the second-schema store. -/
def findMoment2 (state : List Moment2) (id : Nat) : Option Moment2 :=
  state.find? (fun m => m.id == id)

/-- Persist a fetched-and-mutated second-schema moment. -/
def saveMoment2 (state : List Moment2) (m : Moment2) : List Moment2 :=
  state.map (fun x => if x.id = m.id then m else x)

/-- Modelled from the spec: the second moment schema's `removeParticipant`
instance method is not present under src (only its caller, the
`PUT /api/moments/:id/leave` route, is).  The specification describes
removal as dropping the user's entry from the embedded participant set,
with removal of an already-absent user being a no-op rather than an
error, so the method is a filter on `userId`. -/
def Moment2.removeParticipant (m : Moment2) (userId : String) : Moment2 :=
  { m with participants := m.participants.filter (fun p => ¬ p.userId == userId) }

/-- The state change the leave route applies to a found moment: remove
the participant, then flag the moment inactive if no participant is
left. -/
def leaveUpdate (m : Moment2) (userId : String) : Moment2 :=
  if (m.removeParticipant userId).participants.length = 0
  then { m.removeParticipant userId with isActive := false }
  else m.removeParticipant userId

/-- `PUT /api/moments/:id/leave`: 404 on unknown moment, then
`removeParticipant`; if the participant list is now empty the moment is
flagged inactive. -/
def leaveMoment (state : List Moment2) (momentId : Nat) (userId : String) :
    Except AppError (List Moment2) :=
  match findMoment2 state momentId with
  | none => .error ⟨"Moment not found", 404⟩
  | some m => .ok (saveMoment2 state (leaveUpdate m userId))

/-- A post document of the second schema. -/
structure Post2 where
  id : Nat
  momentId : Nat
  userId : String
  content : String
  mood : String
  createdAt : Int
deriving Repr, DecidableEq

/-- `POST /api/posts`: 404 on unknown moment, 400 on an inactive moment,
403 when the author is not a participant; on success the post is stored,
`stats.totalPosts` is incremented by one and the author's `lastActive`
is refreshed. -/
def addPost (state : List Moment2) (posts : List Post2) (momentId : Nat)
    (userId content mood : String) (now : Int) (freshId : Nat) :
    Except AppError (List Moment2 × List Post2) :=
  match findMoment2 state momentId with
  | none => .error ⟨"Moment not found", 404⟩
  | some m =>
    if m.isActive = false then .error ⟨"Cannot post to inactive moment", 400⟩
    else if ¬ m.participants.any (fun p => p.userId == userId) then
      .error ⟨"Must join moment before posting", 403⟩
    else
      let post : Post2 := ⟨freshId, momentId, userId, content, mood, now⟩
      let m1 := { m with stats := { m.stats with totalPosts := m.stats.totalPosts + 1 } }
      let m2 := { m1 with participants := m1.participants.map (fun p =>
        if p.userId == userId then { p with lastActive := now } else p) }
      .ok (saveMoment2 state m2, posts ++ [post])

/-! ## PresenceHub: chat (backend/models/ChatMessage.js,
backend/sockets/chatHandler.js, backend/utils/auth.js) -/

/-- A chat message document (`chatMessageSchema`): the independent expiry
timestamp defaults to `createdAt + 24h`. -/
structure ChatMsg where
  id : Nat
  momentId : Nat
  anonymousUserId : String
  message : String
  messageType : String
  createdAt : Int
  expiresAt : Int
deriving Repr, DecidableEq

/-- The `timeDisplay` virtual renders `createdAt` as a 24-hour
`hour:minute` clock; it is modelled as the UTC pair. -/
def timeDisplay (t : Int) : Int × Int :=
  ((t / hourMs) % 24, (t / 60000) % 60)

/-- The socket payload of one chat message
(`chatMessageSchema.methods.toSocketJSON`). -/
structure SocketPayload where
  id : Nat
  message : String
  messageType : String
  timeDisplay : Int × Int
  createdAt : Int
deriving Repr, DecidableEq

/-- `toSocketJSON`: the wire form of a chat message, used both for the
`newMessage` broadcast and for `chatHistory`.  It carries no sender
identity. -/
def ChatMsg.toSocketJSON (c : ChatMsg) : SocketPayload :=
  ⟨c.id, c.message, c.messageType, timeDisplay c.createdAt, c.createdAt⟩

/-- Insertion step of the `sort({ createdAt: -1 })` model. -/
def insertTimeDesc (c : ChatMsg) : List ChatMsg → List ChatMsg
  | [] => [c]
  | d :: ds => if c.createdAt ≤ d.createdAt then d :: insertTimeDesc c ds else c :: d :: ds

/-- Sort chat messages by descending `createdAt`. -/
def sortTimeDesc : List ChatMsg → List ChatMsg
  | [] => []
  | c :: cs => insertTimeDesc c (sortTimeDesc cs)

/-- `chatMessageSchema.statics.getRecentMessages`: the moment's messages
whose expiry has not passed (`expiresAt > now`), newest first, at most
`limit` of them. -/
def getRecentMessages (msgs : List ChatMsg) (momentId : Nat) (limit : Nat) (now : Int) :
    List ChatMsg :=
  (sortTimeDesc (msgs.filter (fun c => c.momentId == momentId && decide (now < c.expiresAt)))).take limit

/-- `canAccessMoment` (backend/utils/auth.js): a participant may access
the moment, and archived or expired moments are readable by anyone. -/
def canAccessMoment (moments : List Moment) (momentId : Nat) (anon : String) (now : Int) :
    Bool :=
  match moments.find? (fun m => m.id == momentId) with
  | none => false
  | some m =>
    m.participants.any (fun p => p.anonymousId == anon) || m.isArchived ||
      decide (m.timeEnd < now)

/-- Events a socket handler emits. -/
inductive SocketEvent where
  | errorMsg (message : String)
  | chatHistory (messages : List SocketPayload)
  | userJoined (participantCount : Nat)
  | joinedMoment (momentId : Nat)
  | newMessage (payload : SocketPayload)
  | messageSent
deriving Repr, DecidableEq

/-- What a handler run emits: events back to the triggering socket and
events to the rest of the moment's room. -/
structure HandlerOutput where
  selfEvents : List SocketEvent
  roomEvents : List SocketEvent
deriving Repr, DecidableEq

/-- `getParticipantCount` of the chat handler. -/
def getParticipantCount (moments : List Moment) (momentId : Nat) : Nat :=
  match moments.find? (fun m => m.id == momentId) with
  | none => 0
  | some m => m.participants.length

/-- The `joinMoment` socket handler: session and access checks, then the
socket joins the room and immediately receives `chatHistory` — the 20
most recent unexpired messages, oldest first — followed by
`joinedMoment`; the room is told `userJoined`. -/
def joinMoment (moments : List Moment) (msgs : List ChatMsg) (session : Option String)
    (momentId : Nat) (now : Int) : HandlerOutput :=
  match session with
  | none => ⟨[.errorMsg "Anonymous session required"], []⟩
  | some anon =>
    if canAccessMoment moments momentId anon now then
      ⟨[.chatHistory (((getRecentMessages msgs momentId 20 now).reverse).map ChatMsg.toSocketJSON),
         .joinedMoment momentId],
        [.userJoined (getParticipantCount moments momentId)]⟩
    else ⟨[.errorMsg "Access denied to this moment"], []⟩

/-- The `sendMessage` socket handler: requires a bound moment and session,
validates the trimmed message as non-empty and at most 500 characters,
rejects unknown or expired moments, then persists the message (expiry
`now + 24h`) and broadcasts its `toSocketJSON` form as `newMessage`. -/
def sendMessage (moments : List Moment) (msgs : List ChatMsg)
    (currentMomentId : Option Nat) (anonymousId : Option String)
    (message messageType : String) (now : Int) (freshId : Nat) :
    HandlerOutput × List ChatMsg :=
  match currentMomentId, anonymousId with
  | some mid, some anon =>
    if message.trim.length = 0 then
      (⟨[.errorMsg "Message cannot be empty"], []⟩, msgs)
    else if 500 < message.length then
      (⟨[.errorMsg "Message too long (max 500 characters)"], []⟩, msgs)
    else
      match moments.find? (fun m => m.id == mid) with
      | none => (⟨[.errorMsg "Cannot send message to expired moment"], []⟩, msgs)
      | some m =>
        if m.isExpired now then
          (⟨[.errorMsg "Cannot send message to expired moment"], []⟩, msgs)
        else
          let c : ChatMsg := ⟨freshId, mid, anon, message.trim, messageType, now, now + dayMs⟩
          (⟨[.messageSent], [.newMessage c.toSocketJSON]⟩, msgs ++ [c])
  | _, _ => (⟨[.errorMsg "Must join a moment first"], []⟩, msgs)

/-! ## Lemmas about grouping and the mood summary -/

theorem distinctMoodsAux_nodup (rows : List MoodRow) :
    ∀ acc : List String, acc.Nodup → (distinctMoodsAux acc rows).Nodup := by
  induction rows with
  | nil => intro acc h; exact h
  | cons r rs ih =>
    intro acc h
    unfold distinctMoodsAux
    by_cases hm : r.mood ∈ acc
    · simpa [hm] using ih acc h
    · have hdisj : acc.Disjoint [r.mood] := by
        intro a ha hb
        rw [List.mem_singleton] at hb
        exact hm (hb ▸ ha)
      have : (acc ++ [r.mood]).Nodup :=
        List.nodup_append.mpr ⟨h, List.nodup_singleton _, hdisj⟩
      simpa [hm] using ih _ this

theorem mem_distinctMoodsAux_of_acc (rows : List MoodRow) :
    ∀ acc : List String, ∀ x ∈ acc, x ∈ distinctMoodsAux acc rows := by
  induction rows with
  | nil => intro acc x hx; exact hx
  | cons r rs ih =>
    intro acc x hx
    unfold distinctMoodsAux
    by_cases hm : r.mood ∈ acc
    · simpa [hm] using ih acc x hx
    · simpa [hm] using ih (acc ++ [r.mood]) x (List.mem_append_left _ hx)

theorem mood_mem_distinctMoodsAux (rows : List MoodRow) :
    ∀ acc : List String, ∀ r ∈ rows, r.mood ∈ distinctMoodsAux acc rows := by
  induction rows with
  | nil => intro _ r hr; cases hr
  | cons q qs ih =>
    intro acc r hr
    unfold distinctMoodsAux
    rcases List.mem_cons.mp hr with h | h
    · subst h
      by_cases hm : r.mood ∈ acc
      · simpa [hm] using mem_distinctMoodsAux_of_acc qs acc r.mood hm
      · simpa [hm] using
          mem_distinctMoodsAux_of_acc qs (acc ++ [r.mood]) r.mood (by simp)
    · by_cases hm : q.mood ∈ acc
      · simpa [hm] using ih acc r h
      · simpa [hm] using ih (acc ++ [q.mood]) r h

theorem mem_distinctMoodsAux (rows : List MoodRow) :
    ∀ acc : List String, ∀ x ∈ distinctMoodsAux acc rows,
      x ∈ acc ∨ ∃ r ∈ rows, r.mood = x := by
  induction rows with
  | nil => intro acc x hx; exact Or.inl hx
  | cons r rs ih =>
    intro acc x hx
    unfold distinctMoodsAux at hx
    by_cases hm : r.mood ∈ acc
    · rcases ih acc x (by simpa [hm] using hx) with h | ⟨q, hq, hqx⟩
      · exact Or.inl h
      · exact Or.inr ⟨q, List.mem_cons_of_mem _ hq, hqx⟩
    · rcases ih (acc ++ [r.mood]) x (by simpa [hm] using hx) with h | ⟨q, hq, hqx⟩
      · rcases List.mem_append.mp h with h | h
        · exact Or.inl h
        · exact Or.inr ⟨r, List.mem_cons_self _ _, (List.mem_singleton.mp h).symm⟩
      · exact Or.inr ⟨q, List.mem_cons_of_mem _ hq, hqx⟩

theorem distinctMoods_nodup (rows : List MoodRow) : (distinctMoods rows).Nodup :=
  distinctMoodsAux_nodup rows [] List.nodup_nil

theorem mood_mem_distinctMoods {rows : List MoodRow} {r : MoodRow} (h : r ∈ rows) :
    r.mood ∈ distinctMoods rows :=
  mood_mem_distinctMoodsAux rows [] r h

theorem exists_row_of_mem_distinctMoods {rows : List MoodRow} {x : String}
    (h : x ∈ distinctMoods rows) : ∃ r ∈ rows, r.mood = x := by
  rcases mem_distinctMoodsAux rows [] x h with h | h
  · cases h
  · exact h

theorem length_filter_add_length_filter_not {α : Type} (p : α → Bool) (l : List α) :
    (l.filter p).length + (l.filter (fun a => !(p a))).length = l.length := by
  induction l with
  | nil => rfl
  | cons a t ih =>
    by_cases h : p a = true
    · simp [List.filter_cons, h, ← ih]; omega
    · simp only [Bool.not_eq_true] at h
      simp [List.filter_cons, h, ← ih]; omega

theorem sum_filter_lengths (ks : List String) :
    ∀ rows : List MoodRow, ks.Nodup → (∀ r ∈ rows, r.mood ∈ ks) →
      (ks.map (fun k => (rows.filter (fun r => r.mood == k)).length)).sum = rows.length := by
  induction ks with
  | nil =>
    intro rows _ hc
    cases rows with
    | nil => rfl
    | cons r rs => exact absurd (hc r (List.mem_cons_self _ _)) (List.not_mem_nil _)
  | cons k ks ih =>
    intro rows hnd hc
    have hknd : ¬ k ∈ ks := (List.nodup_cons.mp hnd).1
    have hnd' : ks.Nodup := (List.nodup_cons.mp hnd).2
    set rows' := rows.filter (fun r => !(r.mood == k)) with hrowsdef
    have hsplit : (rows.filter (fun r => r.mood == k)).length + rows'.length = rows.length :=
      length_filter_add_length_filter_not _ rows
    have hmapeq : ks.map (fun j => (rows.filter (fun r => r.mood == j)).length)
        = ks.map (fun j => (rows'.filter (fun r => r.mood == j)).length) := by
      refine List.map_congr_left (fun j hj => ?_)
      have hjk : j ≠ k := fun h => hknd (h ▸ hj)
      rw [hrowsdef, List.filter_filter]
      refine congrArg List.length (List.filter_congr (fun r _ => ?_)).symm
      by_cases hr : r.mood = j
      · simp [hr, hjk]
      · simp [hr]
    have hc' : ∀ r ∈ rows', r.mood ∈ ks := by
      intro r hr
      have hrm := List.mem_filter.mp hr
      have := hc r hrm.1
      rcases List.mem_cons.mp this with h | h
      · exfalso
        have hb := hrm.2
        simp [h] at hb
      · exact h
    calc ((k :: ks).map (fun j => (rows.filter (fun r => r.mood == j)).length)).sum
        = (rows.filter (fun r => r.mood == k)).length
            + (ks.map (fun j => (rows.filter (fun r => r.mood == j)).length)).sum := by
          simp
      _ = (rows.filter (fun r => r.mood == k)).length + rows'.length := by
          rw [hmapeq, ih rows' hnd' hc']
      _ = rows.length := hsplit

theorem groupRows_mem {rows : List MoodRow} {g : MoodGroup} (h : g ∈ groupRows rows) :
    g.count = (rows.filter (fun r => r.mood == g.mood)).length ∧ 0 < g.count := by
  rcases List.mem_map.mp h with ⟨md, hmd, hg⟩
  subst hg
  refine ⟨rfl, ?_⟩
  rcases exists_row_of_mem_distinctMoods hmd with ⟨r, hr, hrm⟩
  have : r ∈ rows.filter (fun r => r.mood == md) :=
    List.mem_filter.mpr ⟨hr, by simp [hrm]⟩
  simpa [List.length_pos] using List.ne_nil_of_mem this

theorem groupRows_sum_counts (rows : List MoodRow) :
    ((groupRows rows).map (·.count)).sum = rows.length := by
  unfold groupRows
  rw [List.map_map]
  exact sum_filter_lengths (distinctMoods rows) rows (distinctMoods_nodup rows)
    (fun r hr => mood_mem_distinctMoods hr)

theorem groupsValid_sum_counts {rows : List MoodRow} {mid : Nat} {gs : List MoodGroup}
    (h : GroupsValid rows mid gs) :
    (gs.map (·.count)).sum = (rows.filter (fun r => r.momentId == mid)).length := by
  rw [(h.1.map (·.count)).sum_eq]
  exact groupRows_sum_counts _

theorem groupsValid_eq_nil_of_total_zero {rows : List MoodRow} {mid : Nat}
    {gs : List MoodGroup} (h : GroupsValid rows mid gs)
    (h0 : (gs.map (·.count)).sum = 0) : gs = [] := by
  rcases gs with _ | ⟨g, gs'⟩
  · rfl
  · exfalso
    have hg : g ∈ groupRows (rows.filter (fun r => r.momentId == mid)) :=
      h.1.mem_iff.mp (List.mem_cons_self _ _)
    have := (groupRows_mem hg).2
    simp at h0
    omega

theorem sum_pct_mul_le (T : Nat) (l : List MoodGroup) :
    ((l.map (fun g => (200 * g.count + T) / (2 * T))).sum) * (2 * T) ≤
      200 * ((l.map (·.count)).sum) + l.length * T := by
  induction l with
  | nil => simp
  | cons g t ih =>
    have hdiv : ((200 * g.count + T) / (2 * T)) * (2 * T) ≤ 200 * g.count + T :=
      Nat.div_mul_le_self _ _
    simp only [List.map_cons, List.sum_cons, List.length_cons]
    calc ((200 * g.count + T) / (2 * T) + (t.map (fun g => (200 * g.count + T) / (2 * T))).sum) * (2 * T)
        = ((200 * g.count + T) / (2 * T)) * (2 * T)
            + ((t.map (fun g => (200 * g.count + T) / (2 * T))).sum) * (2 * T) := by
          ring
      _ ≤ (200 * g.count + T) + (200 * ((t.map (·.count)).sum) + t.length * T) :=
          Nat.add_le_add hdiv ih
      _ = 200 * (g.count + (t.map (·.count)).sum) + (t.length + 1) * T := by ring

theorem sum_take_le_sum (l : List Nat) (n : Nat) : (l.take n).sum ≤ l.sum := by
  have := List.sum_take_add_sum_drop l n
  omega

/-! ## Lemmas about the chat sort -/

/-- Newest-first ordering on chat messages. -/
def timeDescRel (a b : ChatMsg) : Prop := b.createdAt ≤ a.createdAt

theorem mem_insertTimeDesc {x c : ChatMsg} {l : List ChatMsg} :
    x ∈ insertTimeDesc c l ↔ x = c ∨ x ∈ l := by
  induction l with
  | nil => simp [insertTimeDesc]
  | cons d ds ih =>
    unfold insertTimeDesc
    by_cases h : c.createdAt ≤ d.createdAt
    · simp only [h, if_pos]
      rw [List.mem_cons, ih, List.mem_cons]
      tauto
    · simp only [h, if_neg, not_false_iff, List.mem_cons]

theorem mem_sortTimeDesc {x : ChatMsg} {l : List ChatMsg} :
    x ∈ sortTimeDesc l ↔ x ∈ l := by
  induction l with
  | nil => simp [sortTimeDesc]
  | cons c cs ih =>
    unfold sortTimeDesc
    rw [mem_insertTimeDesc, ih, List.mem_cons]

theorem sorted_insertTimeDesc {c : ChatMsg} {l : List ChatMsg}
    (h : l.Pairwise timeDescRel) : (insertTimeDesc c l).Pairwise timeDescRel := by
  induction l with
  | nil => simp [insertTimeDesc, List.pairwise_singleton]
  | cons d ds ih =>
    have hd := (List.pairwise_cons.mp h).1
    have ht := (List.pairwise_cons.mp h).2
    unfold insertTimeDesc
    by_cases hc : c.createdAt ≤ d.createdAt
    · simp only [hc, if_pos]
      refine List.pairwise_cons.mpr ⟨?_, ih ht⟩
      intro y hy
      rcases mem_insertTimeDesc.mp hy with h | h
      · subst h; exact hc
      · exact hd y h
    · simp only [hc, if_neg, not_false_iff]
      refine List.pairwise_cons.mpr ⟨?_, h⟩
      intro y hy
      rcases List.mem_cons.mp hy with h | h
      · subst h; exact le_of_not_le hc
      · exact le_trans (hd y h) (le_of_not_le hc)

theorem sorted_sortTimeDesc (l : List ChatMsg) : (sortTimeDesc l).Pairwise timeDescRel := by
  induction l with
  | nil => simp [sortTimeDesc]
  | cons c cs ih => exact sorted_insertTimeDesc ih

theorem insertTimeDesc_map (g : ChatMsg → ChatMsg)
    (hg : ∀ c, (g c).createdAt = c.createdAt) (c : ChatMsg) (l : List ChatMsg) :
    insertTimeDesc (g c) (l.map g) = (insertTimeDesc c l).map g := by
  induction l with
  | nil => simp [insertTimeDesc]
  | cons d ds ih =>
    simp only [List.map_cons]
    unfold insertTimeDesc
    rw [hg c, hg d]
    by_cases h : c.createdAt ≤ d.createdAt
    · simp only [h, if_pos, List.map_cons, ih]
    · simp only [h, if_neg, not_false_iff, List.map_cons]

theorem sortTimeDesc_map (g : ChatMsg → ChatMsg)
    (hg : ∀ c, (g c).createdAt = c.createdAt) (l : List ChatMsg) :
    sortTimeDesc (l.map g) = (sortTimeDesc l).map g := by
  induction l with
  | nil => rfl
  | cons c cs ih =>
    simp only [List.map_cons]
    unfold sortTimeDesc
    rw [ih, insertTimeDesc_map g hg]

/-! ## Lemmas about vote upserts and store updates -/

theorem updateFirstVote_keys (mid : Nat) (uid mood : String) (intensity : Nat)
    (now : Int) (rows : List MoodRow) :
    (updateFirstVote mid uid mood intensity now rows).map (fun r => (r.momentId, r.userId))
      = rows.map (fun r => (r.momentId, r.userId)) := by
  induction rows with
  | nil => rfl
  | cons r rs ih =>
    unfold updateFirstVote
    by_cases h : r.momentId = mid ∧ r.userId = uid
    · simp [h]
    · simp [h, ih]

theorem updateFirstVote_length (mid : Nat) (uid mood : String) (intensity : Nat)
    (now : Int) (rows : List MoodRow) :
    (updateFirstVote mid uid mood intensity now rows).length = rows.length := by
  have := congrArg List.length (updateFirstVote_keys mid uid mood intensity now rows)
  simpa using this

theorem findMoment2_id {state : List Moment2} {mid : Nat} {m : Moment2}
    (h : findMoment2 state mid = some m) : m.id = mid := by
  have := List.find?_some h
  simpa using this

theorem findMoment2_save {state : List Moment2} {mid : Nat} {m : Moment2}
    (m2 : Moment2) (h : findMoment2 state mid = some m) (hid : m2.id = m.id) :
    findMoment2 (saveMoment2 state m2) mid = some m2 := by
  have hmid : m.id = mid := findMoment2_id h
  induction state with
  | nil => simp [findMoment2] at h
  | cons x xs ih =>
    by_cases hx : x.id = mid
    · have hm : m = x := by
        unfold findMoment2 at h
        rw [List.find?_cons_of_pos _ (by simp [hx])] at h
        exact (Option.some_inj.mp h).symm
      have hxm2 : x.id = m2.id := by rw [hid, hm]
      have hm2id : m2.id = mid := by rw [hid, hmid]
      unfold findMoment2 saveMoment2
      rw [List.map_cons, if_pos hxm2, List.find?_cons_of_pos _ (by simp [hm2id])]
    · have hxm2 : ¬ x.id = m2.id := by rw [hid, hmid]; exact hx
      have h2 : findMoment2 xs mid = some m := by
        unfold findMoment2 at h ⊢
        rwa [List.find?_cons_of_neg _ (by simp [hx])] at h
      have := ih h2
      unfold findMoment2 saveMoment2 at this ⊢
      rw [List.map_cons, if_neg hxm2, List.find?_cons_of_neg _ (by simp [hx])]
      exact this

theorem saveMoment2_save (state : List Moment2) (m2 : Moment2) :
    saveMoment2 (saveMoment2 state m2) m2 = saveMoment2 state m2 := by
  unfold saveMoment2
  rw [List.map_map]
  refine List.map_congr_left (fun x _ => ?_)
  by_cases h : x.id = m2.id <;> simp [h]

/-! ## Claim theorems -/

/-- Claim C1: whenever some active, non-expired moment lies within the
50-meter join radius of the queried coordinates, `POST /api/moments`
joins an existing matching moment and creates none (the store size is
unchanged and `isNewMoment` is false) — for every result order the
geo query may return; and `addParticipant` is idempotent: re-adding an
anonymous id already present leaves the moment entirely unchanged, and
the participant id list never acquires a duplicate. -/
theorem createOrJoin_no_duplicate_moment
    (dist : ℚ × ℚ → ℚ × ℚ → ℚ) (now : Int) (moments r : List Moment)
    (lon lat : ℚ) (anon : String) (freshId : Nat)
    (hr : FindNearbyResult dist now lon lat 50 moments r)
    (hex : ∃ m ∈ moments, momentMatches dist now lon lat 50 m = true) :
    ((createOrJoin moments r lon lat anon now freshId).isNewMoment = false ∧
      (createOrJoin moments r lon lat anon now freshId).moments.length = moments.length ∧
      ∃ m ∈ moments, momentMatches dist now lon lat 50 m = true ∧
        (createOrJoin moments r lon lat anon now freshId).momentId = m.id) ∧
    (∀ (m : Moment) (a : String) (t : Int),
        a ∈ m.participants.map Participant.anonymousId → m.addParticipant a t = m) ∧
    (∀ (m : Moment) (a : String) (t : Int),
        (m.participants.map Participant.anonymousId).Nodup →
        ((m.addParticipant a t).participants.map Participant.anonymousId).Nodup) := by
  constructor
  · rcases hex with ⟨m, hm, hmatch⟩
    have hmf : m ∈ moments.filter (momentMatches dist now lon lat 50) :=
      List.mem_filter.mpr ⟨hm, hmatch⟩
    have hrne : r ≠ [] := by
      intro hnil
      have hlen := hr.1.length_eq
      rw [hnil] at hlen
      have h0 : (moments.filter (momentMatches dist now lon lat 50)).length = 0 := by
        simpa using hlen.symm
      exact List.ne_nil_of_mem hmf (List.eq_nil_of_length_eq_zero h0)
    rcases r with _ | ⟨hd, tl⟩
    · exact absurd rfl hrne
    · have hhd : hd ∈ moments.filter (momentMatches dist now lon lat 50) :=
        hr.1.mem_iff.mp (List.mem_cons_self _ _)
      have hhdm := List.mem_filter.mp hhd
      refine ⟨rfl, ?_, hd, hhdm.1, hhdm.2, rfl⟩
      simp [createOrJoin, saveMoment]
  · constructor
    · intro m a t ha
      rcases List.mem_map.mp ha with ⟨p, hp, hpa⟩
      have : m.participants.any (fun p => p.anonymousId == a) = true :=
        List.any_eq_true.mpr ⟨p, hp, by simp [hpa]⟩
      unfold Moment.addParticipant
      rw [if_pos this]
    · intro m a t hnd
      unfold Moment.addParticipant
      by_cases hany : m.participants.any (fun p => p.anonymousId == a) = true
      · rw [if_pos hany]; exact hnd
      · rw [if_neg hany]
        simp only [List.map_append, List.map_cons, List.map_nil]
        refine List.nodup_append.mpr ⟨hnd, List.nodup_singleton _, ?_⟩
        intro x hx hxa
        rw [List.mem_singleton] at hxa
        subst hxa
        rcases List.mem_map.mp hx with ⟨p, hp, hpa⟩
        exact hany (List.any_eq_true.mpr ⟨p, hp, by simp [hpa]⟩)

/-- A concrete active moment used by witnesses. -/
def cMomentA : Moment :=
  { id := 1, lon := 0, lat := 0, timeStart := 0, timeEnd := 86400000,
    participants := [⟨"anonA", 0⟩], posts := [], moodSummary := MoodCounters.zero,
    isActive := true, isArchived := false, createdAt := 0 }

/-- Witness for C1 at a concrete store: one active moment at the queried
point; the route joins it rather than creating a new moment. -/
theorem createOrJoin_no_duplicate_moment_witness :
    (createOrJoin [cMomentA] [cMomentA] 0 0 "anonB" 1000 9).isNewMoment = false ∧
      (createOrJoin [cMomentA] [cMomentA] 0 0 "anonB" 1000 9).moments.length = 1 :=
  ⟨(createOrJoin_no_duplicate_moment (fun _ _ => 0) 1000 [cMomentA] [cMomentA] 0 0 "anonB" 9
      (by decide) ⟨cMomentA, by decide, by decide⟩).1.1,
    (createOrJoin_no_duplicate_moment (fun _ _ => 0) 1000 [cMomentA] [cMomentA] 0 0 "anonB" 9
      (by decide) ⟨cMomentA, by decide, by decide⟩).1.2.1⟩

/-- Claim C2 (amended): in the Mood collection — written only through
`updateMoodVote`, which backs `POST /api/moods/vote` — there is at most
one vote row per `(momentId, userId)`: upserting preserves key
distinctness, a re-vote leaves the number of rows unchanged, and after
votes (calm, 3) then (excited, 5) from one user the store holds exactly
the single overwritten row and every summary the aggregation may produce
shows one total vote, dominant excited at 100%.  (The legacy
`POST /api/moments/:id/moods` route instead increments per-moment
counters with no per-user dedup — see the counterexample.) -/
theorem updateMoodVote_upsert :
    (∀ (rows : List MoodRow) (mid : Nat) (uid mood : String) (i : Nat) (now : Int),
        (rows.map (fun r => (r.momentId, r.userId))).Nodup →
        ((updateMoodVote rows mid uid mood i now).map (fun r => (r.momentId, r.userId))).Nodup) ∧
    (∀ (rows : List MoodRow) (mid : Nat) (uid mood : String) (i : Nat) (now : Int),
        (mid, uid) ∈ rows.map (fun r => (r.momentId, r.userId)) →
        (updateMoodVote rows mid uid mood i now).length = rows.length) ∧
    (updateMoodVote (updateMoodVote [] 7 "u" "calm" 3 10) 7 "u" "excited" 5 20
        = [⟨7, "u", "excited", 5, 20⟩]) ∧
    (∀ gs : List MoodGroup, GroupsValid [⟨7, "u", "excited", 5, 20⟩] 7 gs →
        summarize gs = ⟨1, [("excited", 1)], [⟨"excited", 1, 100, 5⟩]⟩) := by
  have hmem_any : ∀ (rows : List MoodRow) (mid : Nat) (uid : String),
      (mid, uid) ∈ rows.map (fun r => (r.momentId, r.userId)) →
      rows.any (fun r => r.momentId == mid && r.userId == uid) = true := by
    intro rows mid uid h
    rcases List.mem_map.mp h with ⟨r, hr, hkey⟩
    refine List.any_eq_true.mpr ⟨r, hr, ?_⟩
    have h1 : r.momentId = mid := congrArg Prod.fst hkey
    have h2 : r.userId = uid := congrArg Prod.snd hkey
    simp [h1, h2]
  refine ⟨?_, ?_, by decide, ?_⟩
  · intro rows mid uid mood i now hnd
    unfold updateMoodVote
    by_cases hany : rows.any (fun r => r.momentId == mid && r.userId == uid) = true
    · rw [if_pos hany, updateFirstVote_keys]
      exact hnd
    · rw [if_neg hany, List.map_append]
      refine List.nodup_append.mpr ⟨hnd, List.nodup_singleton _, ?_⟩
      intro x hx hxk
      simp only [List.map_cons, List.map_nil, List.mem_singleton] at hxk
      subst hxk
      exact hany (hmem_any rows mid uid hx)
  · intro rows mid uid mood i now hmem
    unfold updateMoodVote
    rw [if_pos (hmem_any rows mid uid hmem)]
    exact updateFirstVote_length _ _ _ _ _ _
  · intro gs hgs
    have : gs = [⟨"excited", 1, 5⟩] := by
      have hperm := hgs.1
      have : groupRows ((([⟨7, "u", "excited", 5, 20⟩] : List MoodRow)).filter
          (fun r => r.momentId == 7)) = [⟨"excited", 1, 5⟩] := by decide
      rw [this] at hperm
      exact List.perm_singleton.mp hperm
    subst this
    unfold summarize SummaryEntry.ofGroup
    norm_num [roundHalfUp]

/-- Witness for C2: a re-vote by the keyed user leaves the single-row
store at length one. -/
theorem updateMoodVote_upsert_witness :
    (updateMoodVote [⟨7, "u", "calm", 3, 10⟩] 7 "u" "excited" 5 20).length = 1 ∧
      summarize [⟨"excited", 1, 5⟩] = ⟨1, [("excited", 1)], [⟨"excited", 1, 100, 5⟩]⟩ :=
  ⟨updateMoodVote_upsert.2.1 [⟨7, "u", "calm", 3, 10⟩] 7 "u" "excited" 5 20 (by decide),
    updateMoodVote_upsert.2.2.2 [⟨"excited", 1, 5⟩] (by decide)⟩

/-- Counterexample for C2 as stated: through the cited
`POST /api/moments/:id/moods` route, a second vote from the same user
("calm" at time 5, then "excited" at time 6, same session "u") leaves the
moment's stored mood summary counting two votes (total 2, calm 1,
excited 1) — not the single overwritten vote the claim requires. -/
theorem moodsRoute_double_vote_counts_twice :
    ((momentsSubmitMood [cMomentA] 1 "calm" (some "u") 5) >>= fun p =>
        momentsSubmitMood p.1 1 "excited" (some "u") 6).map
      (fun p => (p.2.total, p.2.calm, p.2.excited)) = Except.ok (2, 1, 1) := by
  rfl

/-- Claim C3 (amended): for every group order the aggregation pipeline
may produce, the dominant list holds at most three entries, in
non-increasing count order, every dominant count is at least every
non-dominant count (top-3 by count), each entry's count is the moment's
true vote count for that mood and its percentage is
`round(count / total × 100)` with a strictly positive total; and when
`totalVotes = 0` the dominant list is empty (percentages are naturals
throughout, never NaN or undefined).  Which equal-count group comes
first is not determined by the code — see the tie-break
counterexample. -/
theorem getMoodSummary_dominant (rows : List MoodRow) (mid : Nat) (gs : List MoodGroup)
    (hgs : GroupsValid rows mid gs) :
    ((summarize gs).dominantMoods.length ≤ 3) ∧
    (((summarize gs).dominantMoods.map (·.count)).Pairwise (fun a b => b ≤ a)) ∧
    (∀ e ∈ (summarize gs).dominantMoods, ∀ g ∈ gs.drop 3, g.count ≤ e.count) ∧
    (∀ e ∈ (summarize gs).dominantMoods,
        e.count = ((rows.filter (fun r => r.momentId == mid)).filter
            (fun r => r.mood == e.mood)).length ∧
        0 < (summarize gs).totalVotes ∧
        e.percentage = (200 * e.count + (summarize gs).totalVotes)
            / (2 * (summarize gs).totalVotes)) ∧
    ((summarize gs).totalVotes = 0 → (summarize gs).dominantMoods = []) := by
  have hdom : (summarize gs).dominantMoods
      = (gs.take 3).map (SummaryEntry.ofGroup ((gs.map (·.count)).sum)) := rfl
  have htot : (summarize gs).totalVotes = (gs.map (·.count)).sum := rfl
  have hpos : ∀ g ∈ gs, 0 < (gs.map (·.count)).sum := by
    intro g hg
    have hg2 : g ∈ groupRows (rows.filter (fun r => r.momentId == mid)) :=
      hgs.1.mem_iff.mp hg
    have h1 := (groupRows_mem hg2).2
    have h2 : g.count ≤ (gs.map (·.count)).sum :=
      List.single_le_sum (fun x _ => Nat.zero_le x) _ (List.mem_map.mpr ⟨g, hg, rfl⟩)
    omega
  refine ⟨?_, ?_, ?_, ?_, ?_⟩
  · rw [hdom, List.length_map]
    exact List.length_take_le _ _
  · rw [hdom, List.map_map]
    have : gs.Pairwise (fun a b => b.count ≤ a.count) := hgs.2
    have htk := this.sublist (List.take_sublist 3 gs)
    exact List.pairwise_map.mpr htk
  · intro e he g hg
    rw [hdom] at he
    rcases List.mem_map.mp he with ⟨g0, hg0, hge⟩
    have hsplit : gs.take 3 ++ gs.drop 3 = gs := List.take_append_drop 3 gs
    have hpw : gs.Pairwise (fun a b => b.count ≤ a.count) := hgs.2
    rw [← hsplit] at hpw
    have := (List.pairwise_append.mp hpw).2.2 g0 hg0 g hg
    rw [← hge]
    exact this
  · intro e he
    rw [hdom] at he
    rcases List.mem_map.mp he with ⟨g0, hg0, hge⟩
    have hg0gs : g0 ∈ gs := List.mem_of_mem_take hg0
    have hg0gr : g0 ∈ groupRows (rows.filter (fun r => r.momentId == mid)) :=
      hgs.1.mem_iff.mp hg0gs
    have hcnt := (groupRows_mem hg0gr).1
    have hp := hpos g0 hg0gs
    refine ⟨?_, ?_, ?_⟩
    · rw [← hge]
      exact hcnt
    · rw [htot]; exact hp
    · rw [htot, ← hge]
      show (SummaryEntry.ofGroup ((gs.map (·.count)).sum) g0).percentage = _
      unfold SummaryEntry.ofGroup
      simp only [if_pos hp]
  · intro h0
    rw [htot] at h0
    rw [hdom, groupsValid_eq_nil_of_total_zero hgs h0]
    rfl

/-- Witness for C3 at a one-vote store. -/
theorem getMoodSummary_dominant_witness :
    (summarize [⟨"calm", 1, 3⟩]).dominantMoods.length ≤ 3 :=
  (getMoodSummary_dominant [⟨7, "u", "calm", 3, 0⟩] 7 [⟨"calm", 1, 3⟩] (by decide)).1

/-- Counterexample for C3 as stated: with two moods at one vote each
(calm recorded first), the pipeline may legally order the excited group
first, so the dominant list need not break the count tie toward the
earliest-recorded mood as the specification's determinized
`dominantPerSpec` requires. -/
theorem getMoodSummary_tiebreak_counterexample :
    ¬ (∀ (rows : List MoodRow) (mid : Nat) (gs : List MoodGroup),
        GroupsValid rows mid gs →
        ((summarize gs).dominantMoods.map (·.mood)) = dominantPerSpec rows mid) := by
  intro h
  have := h [⟨7, "u1", "calm", 3, 0⟩, ⟨7, "u2", "excited", 3, 1⟩] 7
      [⟨"excited", 1, 3⟩, ⟨"calm", 1, 3⟩] (by decide)
  exact absurd this (by decide)

/-- Twelve votes over three moods (5 calm, 5 excited, 2 happy), each from
a distinct user. -/
def rowsTwelve : List MoodRow :=
  [⟨7, "a", "calm", 3, 0⟩, ⟨7, "b", "calm", 3, 1⟩, ⟨7, "c", "calm", 3, 2⟩,
   ⟨7, "d", "calm", 3, 3⟩, ⟨7, "e", "calm", 3, 4⟩,
   ⟨7, "f", "excited", 3, 5⟩, ⟨7, "g", "excited", 3, 6⟩, ⟨7, "h", "excited", 3, 7⟩,
   ⟨7, "i", "excited", 3, 8⟩, ⟨7, "j", "excited", 3, 9⟩,
   ⟨7, "k", "happy", 3, 10⟩, ⟨7, "l", "happy", 3, 11⟩]

/-- The count-sorted groups of `rowsTwelve`. -/
def groupsTwelve : List MoodGroup :=
  [⟨"calm", 5, 15⟩, ⟨"excited", 5, 15⟩, ⟨"happy", 2, 6⟩]

/-- Claim C4 (amended): `totalVotes` equals the number of distinct
`(momentId, userId)` vote rows of the moment, and the dominant
percentages — each rounded to nearest — sum to at most 101 (not 100:
see the counterexample). -/
theorem moodSummary_totals (rows : List MoodRow) (mid : Nat) (gs : List MoodGroup)
    (hgs : GroupsValid rows mid gs)
    (hkeys : (rows.map (fun r => (r.momentId, r.userId))).Nodup) :
    (summarize gs).totalVotes
        = (((rows.filter (fun r => r.momentId == mid)).map
            (fun r => (r.momentId, r.userId))).dedup).length ∧
    ((summarize gs).dominantMoods.map (·.percentage)).sum ≤ 101 := by
  have htot : (summarize gs).totalVotes = (gs.map (·.count)).sum := rfl
  have hdom : (summarize gs).dominantMoods
      = (gs.take 3).map (SummaryEntry.ofGroup ((gs.map (·.count)).sum)) := rfl
  constructor
  · have hsub : ((rows.filter (fun r => r.momentId == mid)).map
        (fun r => (r.momentId, r.userId))).Sublist
          (rows.map (fun r => (r.momentId, r.userId))) :=
      (List.filter_sublist rows).map _
    have hnd : ((rows.filter (fun r => r.momentId == mid)).map
        (fun r => (r.momentId, r.userId))).Nodup := List.Nodup.sublist hsub hkeys
    rw [List.dedup_eq_self.mpr hnd, List.length_map, htot]
    exact groupsValid_sum_counts hgs
  · set T := (gs.map (·.count)).sum with hT
    by_cases hzero : T = 0
    · rw [hdom, groupsValid_eq_nil_of_total_zero hgs (hT ▸ hzero)]
      simp
    · have hTpos : 0 < T := Nat.pos_of_ne_zero hzero
      have hmapeq : ((summarize gs).dominantMoods.map (·.percentage))
          = (gs.take 3).map (fun g => (200 * g.count + T) / (2 * T)) := by
        rw [hdom, List.map_map]
        refine List.map_congr_left (fun g _ => ?_)
        show (SummaryEntry.ofGroup T g).percentage = _
        unfold SummaryEntry.ofGroup
        simp only [if_pos hTpos]
      have hbound := sum_pct_mul_le T (gs.take 3)
      have hcounts : ((gs.take 3).map (·.count)).sum ≤ T := by
        rw [hT, List.map_take]
        exact sum_take_le_sum _ _
      have hlen : (gs.take 3).length ≤ 3 := List.length_take_le _ _
      have h203 : (((gs.take 3).map (fun g => (200 * g.count + T) / (2 * T))).sum) * (2 * T)
          ≤ 203 * T := by
        calc (((gs.take 3).map (fun g => (200 * g.count + T) / (2 * T))).sum) * (2 * T)
            ≤ 200 * (((gs.take 3).map (·.count)).sum) + (gs.take 3).length * T := hbound
          _ ≤ 200 * T + 3 * T := by
              exact Nat.add_le_add (Nat.mul_le_mul_left _ hcounts) (Nat.mul_le_mul_right _ hlen)
          _ = 203 * T := by ring
      rw [hmapeq]
      set S := ((gs.take 3).map (fun g => (200 * g.count + T) / (2 * T))).sum with hS
      have h2 : (S * 2) * T ≤ 203 * T := by
        calc (S * 2) * T = S * (2 * T) := by ring
          _ ≤ 203 * T := h203
      have := Nat.le_of_mul_le_mul_right h2 hTpos
      omega

/-- Witness for C4 at the twelve-vote store. -/
theorem moodSummary_totals_witness :
    ((summarize groupsTwelve).dominantMoods.map (·.percentage)).sum ≤ 101 :=
  (moodSummary_totals rowsTwelve 7 groupsTwelve (by decide) (by decide)).2

/-- Counterexample for C4 as stated: with vote counts (5, 5, 2) the
rounded dominant percentages are 42, 42 and 17, which sum to 101,
exceeding the claimed bound of 100. -/
theorem moodSummary_percentage_sum_exceeds_100 :
    ¬ (∀ (rows : List MoodRow) (mid : Nat) (gs : List MoodGroup),
        GroupsValid rows mid gs →
        ((summarize gs).dominantMoods.map (·.percentage)).sum ≤ 100) := by
  intro h
  have := h rowsTwelve 7 groupsTwelve (by decide)
  exact absurd this (by decide)

/-- A concrete second-schema moment whose sole participant is "u". -/
def cMoment2 : Moment2 :=
  { id := 3, participants := [⟨"u", 0, 0⟩], isActive := true,
    stats := ⟨0, 1⟩, createdAt := 0 }

/-- Claim C5 (amended): `POST /api/posts` fails with 404 NotFound when
the moment does not exist, 400 Inactive when the moment is flagged
inactive (the sweep flips expired moments inactive), 403 NotParticipant
when the author never joined, and on success stores the post and
increments the moment's `stats.totalPosts` counter by exactly one.  The
legacy `POST /api/moments/:id/posts` route checks only existence and
time-expiry, not participation — see the counterexample. -/
theorem addPost_error_taxonomy (state : List Moment2) (posts : List Post2)
    (mid : Nat) (uid content mood : String) (now : Int) (fid : Nat) :
    (findMoment2 state mid = none →
        addPost state posts mid uid content mood now fid
          = .error ⟨"Moment not found", 404⟩) ∧
    (∀ m, findMoment2 state mid = some m → m.isActive = false →
        addPost state posts mid uid content mood now fid
          = .error ⟨"Cannot post to inactive moment", 400⟩) ∧
    (∀ m, findMoment2 state mid = some m → m.isActive = true →
        ¬ uid ∈ m.participants.map Participant2.userId →
        addPost state posts mid uid content mood now fid
          = .error ⟨"Must join moment before posting", 403⟩) ∧
    (∀ m, findMoment2 state mid = some m → m.isActive = true →
        uid ∈ m.participants.map Participant2.userId →
        ∃ state2, addPost state posts mid uid content mood now fid
            = .ok (state2, posts ++ [⟨fid, mid, uid, content, mood, now⟩]) ∧
          ∃ m2, findMoment2 state2 mid = some m2 ∧
            m2.stats.totalPosts = m.stats.totalPosts + 1) := by
  have hany_of_mem : ∀ (m : Moment2),
      uid ∈ m.participants.map Participant2.userId →
      m.participants.any (fun p => p.userId == uid) = true := by
    intro m h
    rcases List.mem_map.mp h with ⟨p, hp, hpu⟩
    exact List.any_eq_true.mpr ⟨p, hp, by simp [hpu]⟩
  refine ⟨?_, ?_, ?_, ?_⟩
  · intro hnone
    unfold addPost
    rw [hnone]
  · intro m hm hina
    unfold addPost
    rw [hm]
    simp only [hina, if_pos]
  · intro m hm hact hnp
    have hnotany : ¬ m.participants.any (fun p => p.userId == uid) = true := by
      intro hany
      rcases List.any_eq_true.mp hany with ⟨p, hp, hpu⟩
      exact hnp (List.mem_map.mpr ⟨p, hp, by simpa using hpu⟩)
    unfold addPost
    rw [hm]
    simp only [hact]
    rw [if_neg (by simp), if_pos (by simpa using hnotany)]
  · intro m hm hact hmem
    have hany := hany_of_mem m hmem
    unfold addPost
    rw [hm]
    simp only [hact]
    rw [if_neg (by simp), if_neg (by simp [hany])]
    refine ⟨_, rfl, ?_⟩
    refine ⟨_, findMoment2_save _ hm rfl, rfl⟩

/-- Witness for C5: posting as the sole participant of `cMoment2`
succeeds and bumps the post counter from zero to one. -/
theorem addPost_error_taxonomy_witness :
    ∃ state2, addPost [cMoment2] [] 3 "u" "hello" "calm" 50 1
        = .ok (state2, [] ++ [⟨1, 3, "u", "hello", "calm", 50⟩]) ∧
      ∃ m2, findMoment2 state2 3 = some m2 ∧
        m2.stats.totalPosts = cMoment2.stats.totalPosts + 1 :=
  (addPost_error_taxonomy [cMoment2] [] 3 "u" "hello" "calm" 50 1).2.2.2 cMoment2
    (by decide) (by decide) (by decide)

/-- The moment `cMomentA` after the non-participant's post: post id 21
recorded and the happy counter bumped. -/
def cMomentAPosted : Moment :=
  { cMomentA with posts := [21], moodSummary := ⟨1, 0, 0, 0, 0, 0, 0, 1⟩ }

/-- Counterexample for C5 as stated: through the cited
`POST /api/moments/:id/posts` route, author "anonB" — who never joined
`cMomentA`, whose only participant is "anonA" — posts successfully to
the active moment instead of failing with a NotParticipant error. -/
theorem momentsAddPost_skips_participation_check :
    ¬ "anonB" ∈ cMomentA.participants.map Participant.anonymousId ∧
      momentsAddPost [cMomentA] [] 1 "hello" "happy" (some "anonB") 5 21
        = .ok ([cMomentAPosted], [⟨21, 1, "hello", "happy", "anonB", 5⟩]) := by
  exact ⟨by decide, rfl⟩

/-- Claim C6 (amended): every result the `findNearby` query may return
contains only active, non-expired moments within the radius; its first
element — the one `createOrJoin` uses — is at minimal distance among all
matching moments; and the result is empty exactly when no moment
matches.  Which of several exactly-equidistant moments comes first is
not determined by the repository code (the database orders ties) — see
the tie-break counterexample. -/
theorem findNearby_returns_closest (dist : ℚ × ℚ → ℚ × ℚ → ℚ) (now : Int)
    (moments r : List Moment) (lon lat radius : ℚ)
    (hr : FindNearbyResult dist now lon lat radius moments r) :
    (∀ m ∈ r, m.isActive = true ∧ now < m.timeEnd ∧
        dist (lon, lat) (m.lon, m.lat) ≤ radius) ∧
    (∀ h, r.head? = some h →
        ∀ m ∈ moments, momentMatches dist now lon lat radius m = true →
          dist (lon, lat) (h.lon, h.lat) ≤ dist (lon, lat) (m.lon, m.lat)) ∧
    (r = [] ↔ moments.filter (momentMatches dist now lon lat radius) = []) := by
  refine ⟨?_, ?_, ?_⟩
  · intro m hm
    have hmf := List.mem_filter.mp (hr.1.mem_iff.mp hm)
    have := hmf.2
    unfold momentMatches at this
    simp only [Bool.and_eq_true, decide_eq_true_eq] at this
    exact ⟨this.1.1, this.1.2, this.2⟩
  · intro h hh m hm hmatch
    have hmr : m ∈ r := hr.1.mem_iff.mpr (List.mem_filter.mpr ⟨hm, hmatch⟩)
    rcases r with _ | ⟨hd, tl⟩
    · cases hh
    · have hhd : h = hd := by
        simp only [List.head?_cons, Option.some_inj] at hh
        exact hh.symm
      subst hhd
      rcases List.mem_cons.mp hmr with hcase | hcase
      · subst hcase; exact le_refl _
      · exact (List.pairwise_cons.mp hr.2).1 m hcase
  · constructor
    · intro hnil
      rw [hnil] at hr
      exact (hr.1.symm.eq_nil)
    · intro hnil
      have := hr.1
      rw [hnil] at this
      exact this.eq_nil

/-- Witness for C6: the single active moment at the queried point is
reported active, unexpired and in range by the theorem. -/
theorem findNearby_returns_closest_witness :
    cMomentA.isActive = true ∧ (1000 : Int) < cMomentA.timeEnd ∧
      (fun (_ : ℚ × ℚ) (_ : ℚ × ℚ) => (0 : ℚ)) (0, 0) (cMomentA.lon, cMomentA.lat) ≤ 50 :=
  (findNearby_returns_closest (fun _ _ => 0) 1000 [cMomentA] [cMomentA] 0 0 50
      (by decide)).1 cMomentA (List.mem_cons_self _ _)

/-- An old moment at the origin (created at time 0). -/
def cMomentOld : Moment :=
  { id := 1, lon := 0, lat := 0, timeStart := 0, timeEnd := 86400000,
    participants := [], posts := [], moodSummary := MoodCounters.zero,
    isActive := true, isArchived := false, createdAt := 0 }

/-- A more recently created moment at the same point. -/
def cMomentNew : Moment :=
  { id := 2, lon := 0, lat := 0, timeStart := 1000, timeEnd := 86400000,
    participants := [], posts := [], moodSummary := MoodCounters.zero,
    isActive := true, isArchived := false, createdAt := 1000 }

/-- Counterexample for C6 as stated: two matching moments sit at exactly
the same point (hence the same distance under any metric), and the query
may legally return the older one first — the code does not guarantee the
most recently created moment on a distance tie. -/
theorem findNearby_tiebreak_counterexample :
    ¬ (∀ (dist : ℚ × ℚ → ℚ × ℚ → ℚ) (now : Int) (moments r : List Moment)
        (lon lat radius : ℚ) (h : Moment),
        FindNearbyResult dist now lon lat radius moments r →
        r.head? = some h →
        ∀ m ∈ moments, momentMatches dist now lon lat radius m = true →
          dist (lon, lat) (m.lon, m.lat) = dist (lon, lat) (h.lon, h.lat) →
          m.createdAt ≤ h.createdAt) := by
  intro hclaim
  have := hclaim (fun _ _ => 0) 0 [cMomentOld, cMomentNew] [cMomentOld, cMomentNew]
      0 0 50 cMomentOld (by decide) rfl cMomentNew (by decide) (by decide) rfl
  exact absurd this (by decide)

theorem archiveOne_id (now : Int) (m : Moment) : (archiveOne now m).id = m.id := by
  unfold archiveOne
  split <;> rfl

theorem archiveOne_timeEnd (now : Int) (m : Moment) :
    (archiveOne now m).timeEnd = m.timeEnd := by
  unfold archiveOne
  split <;> rfl

theorem find_moment_by_id {moments : List Moment} {m : Moment}
    (hids : (moments.map (·.id)).Nodup) (hm : m ∈ moments) :
    moments.find? (fun x => x.id == m.id) = some m := by
  induction moments with
  | nil => cases hm
  | cons x xs ih =>
    rcases List.mem_cons.mp hm with h | h
    · subst h
      rw [List.find?_cons_of_pos _ (by simp)]
    · have hxid : ¬ x.id = m.id := by
        intro hx
        have hmem : m.id ∈ xs.map (·.id) := List.mem_map.mpr ⟨m, h, rfl⟩
        rw [← hx] at hmem
        exact (List.nodup_cons.mp hids).1 hmem
      rw [List.find?_cons_of_neg _ (by simp [hxid])]
      exact ih (List.nodup_cons.mp hids).2 h

theorem mem_purgeIds_iff {moments : List Moment} {m : Moment} (now : Int)
    (hids : (moments.map (·.id)).Nodup) (hm : m ∈ moments) :
    m.id ∈ purgeIds now moments ↔
      ((archiveOne now m).timeEnd ≤ now - 30 * dayMs ∧
        (archiveOne now m).isArchived = true) := by
  constructor
  · intro h
    rcases List.mem_map.mp h with ⟨y, hy, hyid⟩
    have hyf := List.mem_filter.mp hy
    rcases List.mem_map.mp hyf.1 with ⟨x, hx, hxy⟩
    have hxid : x.id = m.id := by
      rw [← hyid, ← hxy, archiveOne_id]
    have hxm : x = m := List.inj_on_of_nodup_map hids hx hm hxid
    subst hxm
    have := hyf.2
    rw [← hxy] at this
    simp only [Bool.and_eq_true, decide_eq_true_eq] at this
    exact this
  · intro ⟨h1, h2⟩
    refine List.mem_map.mpr ⟨archiveOne now m, List.mem_filter.mpr
      ⟨List.mem_map.mpr ⟨m, hm, rfl⟩, by simp [h1, h2]⟩, archiveOne_id now m⟩

/-- Claim C7 (amended): for a moment created at `T0` with a 24-hour
window, a sweep at `T0 + 25h` flips it to archived-and-inactive while
retaining it and all its posts; a post attempt through the moments route
at `T0 + 25h` is rejected as expired (410); and a sweep at
`T0 + 31 days` — `expiresAt` plus the 30-day retention window of the
code, not the claimed 7 days — deletes the moment together with all its
posts. -/
theorem cleanup_lifecycle (T0 : Int) (moments : List Moment) (posts : List Post1)
    (m : Moment) (hm : m ∈ moments)
    (hwin : m.timeEnd = T0 + dayMs)
    (harch : m.isArchived = false)
    (hids : (moments.map (·.id)).Nodup) :
    ({ m with isArchived := true, isActive := false }
        ∈ (cleanupExpiredMoments (T0 + 25 * hourMs) moments posts).1 ∧
      ∀ p ∈ posts, p.momentId = m.id →
        p ∈ (cleanupExpiredMoments (T0 + 25 * hourMs) moments posts).2) ∧
    (momentsAddPost moments posts m.id "hi" "happy" (some "u") (T0 + 25 * hourMs) 99
        = .error ⟨410, "Cannot post to expired moment"⟩) ∧
    ((∀ x ∈ (cleanupExpiredMoments (T0 + 31 * dayMs) moments posts).1, ¬ x.id = m.id) ∧
      ∀ p ∈ (cleanupExpiredMoments (T0 + 31 * dayMs) moments posts).2,
        ¬ p.momentId = m.id) := by
  have hday : dayMs = 86400000 := rfl
  have hhour : hourMs = 3600000 := rfl
  have harch1 : archiveOne (T0 + 25 * hourMs) m
      = { m with isArchived := true, isActive := false } := by
    unfold archiveOne
    rw [if_pos ⟨by rw [hwin]; omega, harch⟩]
  have hnp1 : ¬ m.id ∈ purgeIds (T0 + 25 * hourMs) moments := by
    rw [mem_purgeIds_iff _ hids hm]
    intro ⟨h1, _⟩
    rw [archiveOne_timeEnd, hwin] at h1
    omega
  refine ⟨⟨?_, ?_⟩, ?_, ?_, ?_⟩
  · unfold cleanupExpiredMoments
    refine List.mem_filter.mpr ⟨?_, ?_⟩
    · exact List.mem_map.mpr ⟨m, hm, harch1⟩
    · have : ({ m with isArchived := true, isActive := false } : Moment).id = m.id := rfl
      simp only [this, decide_eq_true_eq]
      exact hnp1
  · intro p hp hpid
    unfold cleanupExpiredMoments
    refine List.mem_filter.mpr ⟨hp, ?_⟩
    simp only [hpid, decide_eq_true_eq]
    exact hnp1
  · have hfind := find_moment_by_id hids hm
    have hexp : m.isExpired (T0 + 25 * hourMs) = true := by
      unfold Moment.isExpired
      rw [hwin]
      simp only [decide_eq_true_eq]
      omega
    unfold momentsAddPost
    rw [if_neg (by decide), if_neg (by decide)]
    dsimp only
    rw [hfind]
    dsimp only
    rw [if_pos hexp]
  · intro x hx
    have hxf := List.mem_filter.mp hx
    have hxp : ¬ x.id ∈ purgeIds (T0 + 31 * dayMs) moments := by
      have := hxf.2
      simpa using this
    intro hxid
    apply hxp
    rw [hxid, mem_purgeIds_iff _ hids hm]
    have h1 : (archiveOne (T0 + 31 * dayMs) m).timeEnd = m.timeEnd :=
      archiveOne_timeEnd _ _
    have h2 : archiveOne (T0 + 31 * dayMs) m
        = { m with isArchived := true, isActive := false } := by
      unfold archiveOne
      rw [if_pos ⟨by rw [hwin]; omega, harch⟩]
    refine ⟨?_, ?_⟩
    · rw [h1, hwin]; omega
    · rw [h2]
  · intro p hp
    have hpf := List.mem_filter.mp hp
    have hpp : ¬ p.momentId ∈ purgeIds (T0 + 31 * dayMs) moments := by
      have := hpf.2
      simpa using this
    intro hpid
    apply hpp
    rw [hpid, mem_purgeIds_iff _ hids hm]
    have h2 : archiveOne (T0 + 31 * dayMs) m
        = { m with isArchived := true, isActive := false } := by
      unfold archiveOne
      rw [if_pos ⟨by rw [hwin]; omega, harch⟩]
    refine ⟨?_, ?_⟩
    · rw [archiveOne_timeEnd, hwin]; omega
    · rw [h2]

/-- Witness for C7: a post attempt on the day-old moment at hour 25 is
rejected as expired. -/
theorem cleanup_lifecycle_witness :
    momentsAddPost [cMomentOld] [] cMomentOld.id "hi" "happy" (some "u")
        (0 + 25 * hourMs) 99 = .error ⟨410, "Cannot post to expired moment"⟩ :=
  (cleanup_lifecycle 0 [cMomentOld] [] cMomentOld (by decide) (by decide) (by decide)
    (by decide)).2.1

/-- A post belonging to `cMomentOld`. -/
def cPostOld : Post1 := ⟨5, 1, "t", "happy", "u", 0⟩

/-- `cMomentOld` after being archived by the sweep. -/
def cMomentOldArchived : Moment :=
  { cMomentOld with isArchived := true, isActive := false }

/-- Counterexample for C7 as stated: a sweep run at `T0 + 7d25h`
(694800000 ms for `T0 = 0`) does not purge the day-old moment — it and
its post survive, archived, because the code's retention window is 30
days, not the claimed 7. -/
theorem cleanup_no_seven_day_purge :
    (cleanupExpiredMoments 694800000 [cMomentOld] [cPostOld]).1 = [cMomentOldArchived] ∧
      (cleanupExpiredMoments 694800000 [cMomentOld] [cPostOld]).2 = [cPostOld] :=
  ⟨rfl, rfl⟩

theorem filter_userId_idem (l : List Participant2) (uid : String) :
    (l.filter (fun p => ¬ p.userId == uid)).filter (fun p => ¬ p.userId == uid)
      = l.filter (fun p => ¬ p.userId == uid) := by
  rw [List.filter_filter]
  exact List.filter_congr (fun p _ => Bool.and_self _)

theorem leaveUpdate_id (m : Moment2) (uid : String) : (leaveUpdate m uid).id = m.id := by
  unfold leaveUpdate
  split <;> rfl

theorem leaveUpdate_participants (m : Moment2) (uid : String) :
    (leaveUpdate m uid).participants
      = m.participants.filter (fun p => ¬ p.userId == uid) := by
  unfold leaveUpdate
  split <;> rfl

theorem leaveUpdate_idem (m : Moment2) (uid : String) :
    leaveUpdate (leaveUpdate m uid) uid = leaveUpdate m uid := by
  have hparts : ((leaveUpdate m uid).removeParticipant uid).participants
      = (leaveUpdate m uid).participants := by
    show (leaveUpdate m uid).participants.filter _ = _
    rw [leaveUpdate_participants]
    exact filter_userId_idem _ _
  unfold leaveUpdate Moment2.removeParticipant
  by_cases h : (m.participants.filter (fun p => ¬ p.userId == uid)).length = 0
  · simp only [h, if_pos, filter_userId_idem]
  · simp only [h, if_neg, not_false_iff, filter_userId_idem]

/-- Claim C8: leaving a moment is idempotent — a second
`PUT /api/moments/:id/leave` by a user already removed is a no-op that
succeeds with the state unchanged — and removing the last remaining
participant flips the moment inactive.  (`removeParticipant` itself is
modelled from the spec, as its method body is not under src.) -/
theorem leaveMoment_idempotent_and_last (state : List Moment2) (mid : Nat) (uid : String) :
    (∀ s1, leaveMoment state mid uid = .ok s1 → leaveMoment s1 mid uid = .ok s1) ∧
    (∀ m, findMoment2 state mid = some m → m.participants ≠ [] →
        (∀ p ∈ m.participants, p.userId = uid) →
        ∃ s1, leaveMoment state mid uid = .ok s1 ∧
          ∃ m2, findMoment2 s1 mid = some m2 ∧ m2.isActive = false ∧
            m2.participants = []) := by
  constructor
  · intro s1 h
    cases hfind : findMoment2 state mid with
    | none =>
      unfold leaveMoment at h
      rw [hfind] at h
      cases h
    | some m =>
      have he : leaveMoment state mid uid = .ok (saveMoment2 state (leaveUpdate m uid)) := by
        unfold leaveMoment
        rw [hfind]
      rw [he] at h
      injection h with h
      subst h
      have hfind2 : findMoment2 (saveMoment2 state (leaveUpdate m uid)) mid
          = some (leaveUpdate m uid) :=
        findMoment2_save _ hfind (leaveUpdate_id m uid)
      unfold leaveMoment
      rw [hfind2]
      dsimp only
      rw [leaveUpdate_idem, saveMoment2_save]
  · intro m hfind hne hall
    have hrem : (m.removeParticipant uid).participants = [] := by
      show m.participants.filter _ = []
      refine List.filter_eq_nil_iff.mpr (fun p hp => ?_)
      simp [hall p hp]
    have hlu : leaveUpdate m uid = { m.removeParticipant uid with isActive := false } := by
      unfold leaveUpdate
      rw [if_pos (by rw [hrem]; rfl)]
    refine ⟨saveMoment2 state (leaveUpdate m uid), by unfold leaveMoment; rw [hfind], ?_⟩
    refine ⟨leaveUpdate m uid, findMoment2_save _ hfind (leaveUpdate_id m uid), ?_, ?_⟩
    · rw [hlu]
    · rw [hlu]
      show (m.removeParticipant uid).participants = []
      exact hrem

/-- Witness for C8: the sole participant "u" leaves `cMoment2`; the
moment ends up inactive with an empty participant list. -/
theorem leaveMoment_idempotent_and_last_witness :
    ∃ s1, leaveMoment [cMoment2] 3 "u" = .ok s1 ∧
      ∃ m2, findMoment2 s1 3 = some m2 ∧ m2.isActive = false ∧ m2.participants = [] :=
  (leaveMoment_idempotent_and_last [cMoment2] 3 "u").2 cMoment2 (by decide) (by decide)
    (by decide)

/-- A chat message of moment 1, sent by "anonA" at time 500. -/
def cChatMsg : ChatMsg := ⟨11, 1, "anonA", "hey", "text", 500, 500 + 86400000⟩

/-- Claim C9: `chatHistory` returns at most `limit` messages of the
moment, oldest first; no message appears once its independent expiry
timestamp has passed; and on a successful `joinMoment` the socket
immediately receives `chatHistory` (the 20 most recent unexpired
messages) followed by `joinedMoment`. -/
theorem chatHistory_bounded_ordered (msgs : List ChatMsg) (mid limit : Nat) (now : Int) :
    ((getRecentMessages msgs mid limit now).length ≤ limit) ∧
    (((getRecentMessages msgs mid limit now).reverse).Pairwise
        (fun a b => a.createdAt ≤ b.createdAt)) ∧
    (∀ c ∈ getRecentMessages msgs mid limit now, c.momentId = mid ∧ now < c.expiresAt) ∧
    (∀ (moments : List Moment) (anon : String),
        canAccessMoment moments mid anon now = true →
        (joinMoment moments msgs (some anon) mid now).selfEvents
          = [.chatHistory (((getRecentMessages msgs mid 20 now).reverse).map
               ChatMsg.toSocketJSON),
             .joinedMoment mid]) := by
  refine ⟨?_, ?_, ?_, ?_⟩
  · exact List.length_take_le _ _
  · rw [List.pairwise_reverse]
    exact List.Pairwise.sublist (List.take_sublist _ _) (sorted_sortTimeDesc _)
  · intro c hc
    have hs : c ∈ sortTimeDesc (msgs.filter
        (fun c => c.momentId == mid && decide (now < c.expiresAt))) :=
      List.mem_of_mem_take hc
    have hf := (List.mem_filter.mp (mem_sortTimeDesc.mp hs)).2
    simp only [Bool.and_eq_true, beq_iff_eq, decide_eq_true_eq] at hf
    exact hf
  · intro moments anon haccess
    unfold joinMoment
    dsimp only
    rw [if_pos haccess]

/-- Witness for C9: joining moment 1 as its participant delivers the
chat history followed by the join confirmation. -/
theorem chatHistory_bounded_ordered_witness :
    (joinMoment [cMomentA] [cChatMsg] (some "anonA") 1 1000).selfEvents
      = [.chatHistory (((getRecentMessages [cChatMsg] 1 20 1000).reverse).map
           ChatMsg.toSocketJSON),
         .joinedMoment 1] :=
  (chatHistory_bounded_ordered [cChatMsg] 1 20 1000).2.2.2 [cMomentA] "anonA" (by decide)

/-- Claim C10: the socket payload of a chat message carries no sender
identity: replacing a message's `anonymousUserId` leaves `toSocketJSON`
unchanged; re-assigning arbitrary senders to every stored message leaves
the whole `chatHistory` payload unchanged; and every room broadcast of
the send path is a `newMessage` event whose payload is the
`toSocketJSON` form of some message. -/
theorem toSocketJSON_sender_independent :
    (∀ (c : ChatMsg) (s : String),
        ChatMsg.toSocketJSON { c with anonymousUserId := s } = ChatMsg.toSocketJSON c) ∧
    (∀ (msgs : List ChatMsg) (f : ChatMsg → String) (mid limit : Nat) (now : Int),
        ((getRecentMessages (msgs.map (fun c => { c with anonymousUserId := f c }))
            mid limit now).map ChatMsg.toSocketJSON)
          = (getRecentMessages msgs mid limit now).map ChatMsg.toSocketJSON) ∧
    (∀ (moments : List Moment) (msgs : List ChatMsg) (cm : Option Nat)
        (an : Option String) (message messageType : String) (now : Int) (fid : Nat),
        (sendMessage moments msgs cm an message messageType now fid).1.roomEvents = [] ∨
        ∃ c, (sendMessage moments msgs cm an message messageType now fid).1.roomEvents
            = [.newMessage (ChatMsg.toSocketJSON c)]) := by
  refine ⟨fun c s => rfl, ?_, ?_⟩
  · intro msgs f mid limit now
    have hfiltermap : (msgs.map (fun c => { c with anonymousUserId := f c })).filter
          (fun c => c.momentId == mid && decide (now < c.expiresAt))
        = (msgs.filter (fun c => c.momentId == mid && decide (now < c.expiresAt))).map
            (fun c => { c with anonymousUserId := f c }) := by
      rw [List.filter_map]
      congr 1
    unfold getRecentMessages
    rw [hfiltermap,
      sortTimeDesc_map (fun c => { c with anonymousUserId := f c }) (fun c => rfl),
      ← List.map_take, List.map_map]
    exact List.map_congr_left (fun c _ => rfl)
  · intro moments msgs cm an message messageType now fid
    rcases cm with _ | mid
    · left; rfl
    rcases an with _ | anon
    · left; rfl
    by_cases h1 : message.trim.length = 0
    · left
      unfold sendMessage
      dsimp only
      rw [if_pos h1]
    · by_cases h2 : 500 < message.length
      · left
        unfold sendMessage
        dsimp only
        rw [if_neg h1, if_pos h2]
      · cases hfind : moments.find? (fun m => m.id == mid) with
        | none =>
          left
          unfold sendMessage
          dsimp only
          rw [if_neg h1, if_neg h2, hfind]
        | some m =>
          by_cases h3 : m.isExpired now = true
          · left
            unfold sendMessage
            dsimp only
            rw [if_neg h1, if_neg h2, hfind]
            dsimp only
            rw [if_pos h3]
          · right
            refine ⟨⟨fid, mid, anon, message.trim, messageType, now, now + dayMs⟩, ?_⟩
            unfold sendMessage
            dsimp only
            rw [if_neg h1, if_neg h2, hfind]
            dsimp only
            rw [if_neg h3]

end KM
